import Mathlib

/-!
Verification of the `nexus` latency-measurement server
(`src/services/rust-grpc`): a shallow embedding of the statistics engine
(`bench.rs`), the framed echo protocol handler (`tcp.rs`), the RPC
service (`grpc.rs`) and the TLS context resolver (`tls.rs`), together
with theorems settling the specified properties.

Machine integers are modelled as `Int` with explicit two's-complement
wrapping (`wrap64`) at the points where the Rust code performs `i64`
arithmetic that can overflow (release-mode semantics: overflow wraps).
-/

namespace Nexus

/-- Two's-complement normalisation of an integer into the `i64` range
`[-2^63, 2^63)` — the value an `i64` register holds after a wrapping
operation. -/
def wrap64 (x : Int) : Int := (x + 2 ^ 63) % 2 ^ 64 - 2 ^ 63

/-- `i64` addition with Rust release-mode (wrapping) overflow semantics. -/
def i64add (a b : Int) : Int := wrap64 (a + b)

/-- `i64` subtraction with Rust release-mode (wrapping) overflow semantics. -/
def i64sub (a b : Int) : Int := wrap64 (a - b)

/-- `sorted.iter().sum::<i64>()` from `Stats::from_sorted` (bench.rs):
a left fold of `i64` addition starting at 0. -/
def i64sum (l : List Int) : Int := l.foldl i64add 0

/-- The p50 index `n / 2` used by `Stats::from_sorted` (bench.rs line 43):
Rust `usize` division, i.e. `Nat` floor division. -/
def p50Index (n : Nat) : Nat := n / 2

/-- The p99 index of `Stats::from_sorted` (bench.rs line 44), in the source
`(n as f64 * 0.99) as usize`.  For every length `n` a slice of `i64` can
have (`n < 2^45`, far below any addressable allocation) the `f64`
computation `⌊fl(fl(n) * fl(0.99))⌋` equals `⌊99 n / 100⌋`: the nearest
`f64` to `0.99` is `0.99 - 0.32·2⁻⁵³`, so the exact product differs from
`99n/100` by less than `n·2⁻⁵³`, which rounding cannot carry across the
next integer below (distance ≥ 1/100) nor, when `100 ∣ n`, away from the
integer value itself (the error is under half an ulp).  We therefore embed
the index as exact `Nat` arithmetic. -/
def p99Index (n : Nat) : Nat := 99 * n / 100

/-- The `Stats` struct of bench.rs: min/max/mean/p50/p99, all `i64`. -/
structure Stats where
  min : Int
  max : Int
  mean : Int
  p50 : Int
  p99 : Int
  deriving Repr, DecidableEq

/-- `Stats::from_sorted` (bench.rs lines 26–45).  Empty input: all fields
zero.  Otherwise `min = sorted[0]`, `max = sorted[n-1]`,
`mean = sum / n` (`i64` division truncates toward zero, hence `Int.tdiv`),
`p50 = sorted[n/2]`, `p99 = sorted[(n as f64 * 0.99) as usize]`.
Indexing is embedded as `getD _ 0`; the indices are proved in bounds
(`p50Index_lt`, `p99Index_lt`) so the default is never consulted. -/
def Stats.fromSorted (sorted : List Int) : Stats :=
  if sorted.isEmpty then
    { min := 0, max := 0, mean := 0, p50 := 0, p99 := 0 }
  else
    let n := sorted.length
    let sum : Int := i64sum sorted
    { min := sorted.getD 0 0
      max := sorted.getD (n - 1) 0
      mean := sum.tdiv n
      p50 := sorted.getD (p50Index n) 0
      p99 := sorted.getD (p99Index n) 0 }

theorem p50Index_lt {n : Nat} (h : 1 ≤ n) : p50Index n < n := by
  unfold p50Index; omega

theorem p99Index_lt {n : Nat} (h : 1 ≤ n) : p99Index n < n := by
  unfold p99Index; omega

theorem p50Index_le_p99Index (n : Nat) : p50Index n ≤ p99Index n := by
  unfold p50Index p99Index; omega

/-! ## Echo protocol handler (tcp.rs) -/

/-- How the peer's byte stream ends once its queued bytes are exhausted:
a clean close (reads yield end-of-file, which `read_exact` surfaces as
`ErrorKind::UnexpectedEof`) or a transport failure (any other
`ErrorKind`). -/
inductive StreamEnd where
  | eof
  | ioErr
  deriving Repr, DecidableEq

/-- Outcome of `handle_tcp_echo`: `Ok(())` or a terminal per-connection
error. -/
inductive EchoTermination where
  | success
  | connError
  deriving Repr, DecidableEq

/-- `u32::from_le_bytes` applied to the first four bytes of `b`
(tcp.rs line 72). -/
def u32leDecode (b : List Nat) : Nat :=
  b.getD 0 0 + 256 * b.getD 1 0 + 256 ^ 2 * b.getD 2 0 + 256 ^ 3 * b.getD 3 0

/-- Little-endian 4-byte encoding of a `u32` value, the frame a client
sends as length prefix. -/
def u32leEncode (len : Nat) : List Nat :=
  [len % 256, len / 256 % 256, len / 256 ^ 2 % 256, len / 256 ^ 3 % 256]

/-- `i64::to_le_bytes`: the eight little-endian bytes of the
two's-complement representation of `x` (tcp.rs lines 85–86). -/
def i64leEncode (x : Int) : List Nat :=
  (List.range 8).map (fun i => (x % 2 ^ 64).toNat / 256 ^ i % 256)

/-- `handle_tcp_echo` (tcp.rs lines 61–90), embedded over an explicit
stream: `input` is the byte sequence the peer sends before the stream
ends with `endK`; `clock` is the monotonic-clock oracle (`bench::now_ns`),
`tick` the index of its next reading.  Returns the handler's result
together with every byte written to the stream.  The loop:
read 4 length bytes (stream end here: `Ok` on clean EOF — tokio's
`read_exact` reports `UnexpectedEof` whether 0 or 1–3 bytes arrived —
`Err` otherwise); take `recv_ns`; `len == 0` ends the connection with no
response; read `len` payload bytes (any failure is terminal); take
`send_ns`; write `recv_ns`, `send_ns` (both i64 LE) and the payload;
repeat. -/
def handleTcpEcho (clock : Nat → Int) (tick : Nat) (input : List Nat)
    (endK : StreamEnd) : EchoTermination × List Nat :=
  if _h4 : input.length < 4 then
    -- read_exact of the length prefix fails before 4 bytes arrive
    match endK with
    | .eof => (.success, [])
    | .ioErr => (.connError, [])
  else
    let rest := input.drop 4
    let recv_ns := clock tick
    let len := u32leDecode (input.take 4)
    if len = 0 then (.success, [])
    else if rest.length < len then
      -- read_exact of the payload fails: terminal either way
      (.connError, [])
    else
      let payload := rest.take len
      let send_ns := clock (tick + 1)
      let out := i64leEncode recv_ns ++ i64leEncode send_ns ++ payload
      let next := handleTcpEcho clock (tick + 2) (rest.drop len) endK
      (next.1, out ++ next.2)
termination_by input.length
decreasing_by
  simp only [List.length_drop]
  omega

/-! ## RPC service (grpc.rs) -/

/-- The request-independent part of `ServerState` (grpc.rs lines 17–24)
that the modelled handlers read: version and region strings and the two
configured ports.  The two start-time fields are clock material and enter
the model as explicit oracle arguments instead. -/
structure ServerState where
  version : String
  region : String
  grpc_port : Nat
  tcp_port : Nat

/-- `HermitService` (grpc.rs lines 26–29): the shared state handle plus
the `tls_enabled` flag. -/
structure HermitService where
  state : ServerState
  tls_enabled : Bool

/-- The service value `serve` constructs (grpc.rs lines 138–141):
`tls_enabled` is hardcoded to `true`. -/
def serveService (state : ServerState) : HermitService :=
  { state := state, tls_enabled := true }

/-- `BenchmarkRequest`: `iterations` and `payload_bytes` are `u32`. -/
structure BenchmarkRequest where
  iterations : Nat
  payload_bytes : Nat

/-- `BenchmarkResponse` (the fields grpc.rs lines 79–91 fill in). -/
structure BenchmarkResponse where
  latencies_ns : List Int
  min_ns : Int
  max_ns : Int
  mean_ns : Int
  p50_ns : Int
  p99_ns : Int
  processing_overhead_ns : Int
  tls_active : Bool
  tls_version : String

/-- `inner.iterations.max(1).min(10_000)` (grpc.rs line 49). -/
def clampIterations (iterations : Nat) : Nat := min (max iterations 1) 10000

/-- `HermitService::benchmark` (grpc.rs lines 44–92).  The monotonic clock
is an oracle `clock : Nat → Int` giving the successive `bench::now_ns()`
readings of this call in order: reading 0 is `overhead_start`, readings
`2i+1` and `2i+2` are iteration `i`'s `t0`/`t1`, reading
`2·iterations + 1` is `overhead_end`.  The payload buffer is allocated
and touched (`black_box`) but never observable, so it does not appear.
`sort_unstable` sorts ascending; since `≤` on `Int` is total and
antisymmetric, every sorting algorithm yields the same list, embedded
here as `insertionSort`. -/
def benchmark (svc : HermitService) (clock : Nat → Int)
    (req : BenchmarkRequest) : BenchmarkResponse :=
  let iterations := clampIterations req.iterations
  let latencies :=
    (List.range iterations).map
      (fun i => i64sub (clock (2 * i + 2)) (clock (2 * i + 1)))
  let sorted := latencies.insertionSort (· ≤ ·)
  let stats := Stats.fromSorted sorted
  { latencies_ns := sorted
    min_ns := stats.min
    max_ns := stats.max
    mean_ns := stats.mean
    p50_ns := stats.p50
    p99_ns := stats.p99
    processing_overhead_ns := i64sub (clock (2 * iterations + 1)) (clock 0)
    tls_active := svc.tls_enabled
    tls_version := if svc.tls_enabled then "TLS 1.3" else "" }

/-- `ServerInfoResponse` (grpc.rs lines 116–127). -/
structure ServerInfoResponse where
  version : String
  region : String
  started_at_seconds : Int
  started_at_nanos : Int
  uptime_seconds : Int
  rust_version : String
  tls_enabled : Bool
  grpc_port : Nat
  tcp_port : Nat

/-- `HermitService::server_info` (grpc.rs lines 107–128).  The elapsed
monotonic seconds, the wall-clock duration since the Unix epoch
(`unwrap_or_default` already applied) and the compile-time
`CARGO_PKG_VERSION` string are oracle arguments. -/
def server_info (svc : HermitService) (uptimeSecs : Int)
    (sinceEpochSecs : Int) (sinceEpochNanos : Int)
    (cargoPkgVersion : String) : ServerInfoResponse :=
  { version := svc.state.version
    region := svc.state.region
    started_at_seconds := sinceEpochSecs
    started_at_nanos := sinceEpochNanos
    uptime_seconds := uptimeSecs
    rust_version := cargoPkgVersion
    tls_enabled := svc.tls_enabled
    grpc_port := svc.state.grpc_port
    tcp_port := svc.state.tcp_port }

/-! ## TLS context resolver (tls.rs) -/

/-- The server context a successful
`ServerConfig::builder().with_no_client_auth().with_single_cert(..)`
call assembles: one certificate chain and one installed private key, no
client-certificate requirement. -/
structure ServerConfigModel where
  cert_chain : List (List Nat)
  key : List Nat

/-- The external collaborators of `resolve_tls_config` /
`build_rustls_config`, modelled as oracles with their real failure
modes.  `readFile` is `std::fs::read` (`none` = unreadable).
`generateSelfSigned` is `generate_simple_self_signed` applied to the
fixed host identities `localhost` / `hermit.local` / `127.0.0.1`
followed by `cert.pem()` / `key_pair.serialize_pem()`: on success the
certificate-PEM and key-PEM byte strings, and the `?`-propagated error
otherwise (tls.rs lines 29–33).  `parseCerts` / `parsePkcs8Keys` are
`rustls_pemfile::certs` / `pkcs8_private_keys` with the
`collect::<Result<Vec<_>, _>>()` applied: a malformed PEM item is an
error, otherwise the parsed items, possibly none (tls.rs lines 54–56).
`withSingleCert` is rustls's fallible `with_single_cert`, which may
reject the chain/key pair (tls.rs line 64). -/
structure TlsExternal where
  readFile : String → Option (List Nat)
  generateSelfSigned : Except String (List Nat × List Nat)
  parseCerts : List Nat → Except String (List (List Nat))
  parsePkcs8Keys : List Nat → Except String (List (List Nat))
  withSingleCert : List (List Nat) → List Nat → Except String ServerConfigModel

/-- `TlsConfig` (tls.rs lines 10–15): raw PEM bytes plus the derived
server context. -/
structure TlsConfig where
  cert_pem : List Nat
  key_pem : List Nat
  server_config : ServerConfigModel

/-- `build_rustls_config` (tls.rs lines 50–67): parse the certificates
(a malformed item propagates via `?`), parse the PKCS#8 keys (likewise),
error when no private key was found, then install the chain and the
first key (`keys.remove(0)`) with `with_single_cert`, which itself may
reject the pair (its error propagates via `?`). -/
def build_rustls_config (ext : TlsExternal) (cert_pem key_pem : List Nat) :
    Except String ServerConfigModel := do
  let cert_chain ← ext.parseCerts cert_pem
  let keys ← ext.parsePkcs8Keys key_pem
  if keys.isEmpty then
    Except.error "no private keys found in PEM"
  else
    ext.withSingleCert cert_chain keys.headI

/-- `resolve_tls_config` (tls.rs lines 18–48): with both paths supplied,
read both files (either read failing is an error); otherwise generate
the self-signed pair (its failure propagates via `?`), touching no file.
Then derive the server context via `build_rustls_config` and return it
with the PEM pair. -/
def resolve_tls_config (ext : TlsExternal)
    (cert_path key_path : Option String) : Except String TlsConfig := do
  let pems : List Nat × List Nat ←
    match cert_path, key_path with
    | some c, some k =>
      match ext.readFile c with
      | none => Except.error "read failed"
      | some cert_pem =>
        match ext.readFile k with
        | none => Except.error "read failed"
        | some key_pem => Except.ok (cert_pem, key_pem)
    | _, _ => ext.generateSelfSigned
  let sc ← build_rustls_config ext pems.1 pems.2
  Except.ok { cert_pem := pems.1, key_pem := pems.2, server_config := sc }

/-- An oracle assignment where both files are readable and the key PEM
parses to exactly one private key, but the certificate PEM is malformed:
`rustls_pemfile::certs` yields an `Err` item, which tls.rs line 54
propagates. -/
def certParseFailTlsExternal : TlsExternal where
  readFile := fun _ => some [0]
  generateSelfSigned := Except.ok ([1], [2])
  parseCerts := fun _ => Except.error "bad cert pem"
  parsePkcs8Keys := fun _ => Except.ok [[4]]
  withSingleCert := fun chain key => Except.ok { cert_chain := chain, key := key }

/-- A fully succeeding oracle assignment, except that every file read
fails. -/
def sampleTlsExternal : TlsExternal where
  readFile := fun _ => none
  generateSelfSigned := Except.ok ([1], [2])
  parseCerts := fun _ => Except.ok [[3]]
  parsePkcs8Keys := fun _ => Except.ok [[4]]
  withSingleCert := fun chain key => Except.ok { cert_chain := chain, key := key }

/-! ## Helper lemmas -/

/-- Membership in the `i64` range `[-2^63, 2^63)`. -/
def isI64 (x : Int) : Prop := -2 ^ 63 ≤ x ∧ x < 2 ^ 63

instance (x : Int) : Decidable (isI64 x) := by unfold isI64; infer_instance

theorem pow64_int : (2 : Int) ^ 64 = 18446744073709551616 := by norm_num

theorem pow63_int : (2 : Int) ^ 63 = 9223372036854775808 := by norm_num

theorem wrap64_isI64 (x : Int) : isI64 (wrap64 x) := by
  unfold isI64 wrap64
  have h1 : 0 ≤ (x + 2 ^ 63) % 2 ^ 64 := Int.emod_nonneg _ (by norm_num)
  have h2 : (x + 2 ^ 63) % 2 ^ 64 < 2 ^ 64 := Int.emod_lt_of_pos _ (by norm_num)
  constructor <;> [skip; skip] <;> omega

theorem wrap64_emod (x : Int) : wrap64 x % 2 ^ 64 = x % 2 ^ 64 := by
  unfold wrap64
  conv_lhs => rw [Int.sub_emod, Int.emod_emod_of_dvd _ dvd_rfl, ← Int.sub_emod]
  rw [add_sub_cancel_right]

theorem i64sum_isI64 (l : List Int) : isI64 (i64sum l) := by
  unfold i64sum
  suffices h : ∀ acc : Int, isI64 acc → isI64 (l.foldl i64add acc) from
    h 0 (by unfold isI64; norm_num)
  induction l with
  | nil => exact fun acc h => h
  | cons x xs ih => exact fun acc h => ih _ (wrap64_isI64 _)

theorem i64sum_emod (l : List Int) : i64sum l % 2 ^ 64 = l.sum % 2 ^ 64 := by
  unfold i64sum
  suffices h : ∀ acc : Int, l.foldl i64add acc % 2 ^ 64 = (acc + l.sum) % 2 ^ 64 by
    simpa using h 0
  induction l with
  | nil => intro acc; simp
  | cons x xs ih =>
    intro acc
    simp only [List.foldl_cons, List.sum_cons]
    rw [ih]
    unfold i64add
    conv_lhs => rw [Int.add_emod, wrap64_emod, ← Int.add_emod]
    ring_nf

/-- When the mathematical sum of a batch fits in `i64`, the wrapping
summation computes it exactly. -/
theorem i64sum_eq_sum {l : List Int} (h : isI64 l.sum) : i64sum l = l.sum := by
  have h1 := i64sum_isI64 l
  have h2 := i64sum_emod l
  unfold isI64 at h h1
  rw [pow63_int] at h h1
  rw [pow64_int] at h2
  omega

theorem sorted_getD_le {l : List Int} (h : l.Sorted (· ≤ ·)) {i j : Nat}
    (hij : i ≤ j) (hj : j < l.length) : l.getD i 0 ≤ l.getD j 0 := by
  have hi : i < l.length := lt_of_le_of_lt hij hj
  rw [List.getD_eq_getElem l 0 hi, List.getD_eq_getElem l 0 hj]
  have hfin : (⟨i, hi⟩ : Fin l.length) ≤ ⟨j, hj⟩ := hij
  simpa using h.rel_get_of_le hfin

/-! ## The claims -/

/-- C1: for every non-empty ascending-sorted batch of `i64` samples, the
`Stats` returned by `Stats::from_sorted` satisfy
`min ≤ p50 ≤ p99 ≤ max`. -/
theorem stats_order (l : List Int) (hne : l ≠ []) (hs : l.Sorted (· ≤ ·))
    (_hr : ∀ x ∈ l, isI64 x) :
    (Stats.fromSorted l).min ≤ (Stats.fromSorted l).p50 ∧
    (Stats.fromSorted l).p50 ≤ (Stats.fromSorted l).p99 ∧
    (Stats.fromSorted l).p99 ≤ (Stats.fromSorted l).max := by
  have hlen : 1 ≤ l.length := List.length_pos.mpr hne
  have hemp : l.isEmpty = false := by
    simpa [List.isEmpty_iff] using hne
  unfold Stats.fromSorted
  simp only [hemp, Bool.false_eq_true, if_false]
  refine ⟨?_, ?_, ?_⟩
  · exact sorted_getD_le hs (Nat.zero_le _) (p50Index_lt hlen)
  · exact sorted_getD_le hs (p50Index_le_p99Index _) (p99Index_lt hlen)
  · exact sorted_getD_le hs (by have := p99Index_lt hlen; omega) (by omega)

theorem stats_order_witness :
    (([1, 2, 3] : List Int) ≠ []) ∧
    ([1, 2, 3] : List Int).Sorted (· ≤ ·) ∧
    (∀ x ∈ ([1, 2, 3] : List Int), isI64 x) ∧
    ((Stats.fromSorted [1, 2, 3]).min ≤ (Stats.fromSorted [1, 2, 3]).p50 ∧
     (Stats.fromSorted [1, 2, 3]).p50 ≤ (Stats.fromSorted [1, 2, 3]).p99 ∧
     (Stats.fromSorted [1, 2, 3]).p99 ≤ (Stats.fromSorted [1, 2, 3]).max) :=
  ⟨by decide, by decide, by decide,
   stats_order [1, 2, 3] (by decide) (by decide) (by decide)⟩

/-- C4 counterexample: the batch `[2^62, 2^62]` is ascending-sorted with
every sample in `i64`, yet the mean `Stats::from_sorted` computes is not
the sum of the elements divided by the length: the `i64` summation wraps
`2^63` to `-2^63`, so the code yields `-2^62` where the claim demands
`2^62`. -/
theorem stats_mean_overflow_counterexample :
    (([2 ^ 62, 2 ^ 62] : List Int).Sorted (· ≤ ·)) ∧
    (∀ x ∈ ([2 ^ 62, 2 ^ 62] : List Int), isI64 x) ∧
    (Stats.fromSorted [2 ^ 62, 2 ^ 62]).mean = -2 ^ 62 ∧
    (Stats.fromSorted [2 ^ 62, 2 ^ 62]).mean ≠
      (([2 ^ 62, 2 ^ 62] : List Int).sum).tdiv ([2 ^ 62, 2 ^ 62] : List Int).length :=
  ⟨by decide, by decide, by decide, by decide⟩

/-- C4 (amended): `Stats::from_sorted` of the empty batch has all five
fields zero; of a non-empty ascending-sorted batch of length `n` it has
`min` the first element, `max` the last element, `p50` the element at
index `⌊n/2⌋`, `p99` the element at index `⌊n · 0.99⌋ = ⌊99n/100⌋`, and —
whenever the mathematical sum of the samples fits in `i64` — `mean` the
sum divided by `n` truncating toward zero (when the sum overflows, the
summation wraps modulo `2^64` first). -/
theorem stats_fields (l : List Int) (hs : l.Sorted (· ≤ ·))
    (hr : ∀ x ∈ l, isI64 x) :
    Stats.fromSorted [] = { min := 0, max := 0, mean := 0, p50 := 0, p99 := 0 } ∧
    ∀ hne : l ≠ [],
      (Stats.fromSorted l).min = l.headI ∧
      (Stats.fromSorted l).max = l.getLast hne ∧
      (isI64 l.sum → (Stats.fromSorted l).mean = l.sum.tdiv l.length) ∧
      (Stats.fromSorted l).p50 = l.getD (l.length / 2) 0 ∧
      (Stats.fromSorted l).p99 = l.getD (99 * l.length / 100) 0 := by
  refine ⟨by decide, fun hne => ?_⟩
  have hlen : 1 ≤ l.length := List.length_pos.mpr hne
  have hemp : l.isEmpty = false := by simpa [List.isEmpty_iff] using hne
  unfold Stats.fromSorted
  simp only [hemp, Bool.false_eq_true, if_false]
  refine ⟨?_, ?_, ?_, rfl, rfl⟩
  · cases l with
    | nil => exact absurd rfl hne
    | cons a t => rfl
  · rw [List.getLast_eq_getElem, List.getD_eq_getElem l 0 (by omega)]
  · intro hsum
    rw [i64sum_eq_sum hsum]

theorem stats_fields_witness :
    (([3, 5, 9] : List Int).Sorted (· ≤ ·)) ∧
    (∀ x ∈ ([3, 5, 9] : List Int), isI64 x) ∧
    (([3, 5, 9] : List Int) ≠ []) ∧
    isI64 ([3, 5, 9] : List Int).sum ∧
    Stats.fromSorted [] = { min := 0, max := 0, mean := 0, p50 := 0, p99 := 0 } ∧
    (Stats.fromSorted [3, 5, 9]).min = ([3, 5, 9] : List Int).headI ∧
    (Stats.fromSorted [3, 5, 9]).max = ([3, 5, 9] : List Int).getLast (by decide) ∧
    (Stats.fromSorted [3, 5, 9]).mean =
      (([3, 5, 9] : List Int).sum).tdiv ([3, 5, 9] : List Int).length ∧
    (Stats.fromSorted [3, 5, 9]).p50 =
      ([3, 5, 9] : List Int).getD (([3, 5, 9] : List Int).length / 2) 0 ∧
    (Stats.fromSorted [3, 5, 9]).p99 =
      ([3, 5, 9] : List Int).getD (99 * ([3, 5, 9] : List Int).length / 100) 0 := by
  have h := stats_fields [3, 5, 9] (by decide) (by decide)
  have h2 := h.2 (by decide)
  exact ⟨by decide, by decide, by decide, by decide, h.1, h2.1, h2.2.1,
    h2.2.2.1 (by decide), h2.2.2.2.1, h2.2.2.2.2⟩

/-- C5: `Stats::from_sorted` is total — for every length `n ≥ 1` the p50
index `⌊n/2⌋` and the p99 index `⌊99n/100⌋` are strictly below `n`, so
both indexing operations are in bounds without clamping, and the `i64`
summation always produces an `i64` value (Rust release-mode wrapping
semantics; the pure function has no failing path). -/
theorem stats_total (n : Nat) (hn : 1 ≤ n) (l : List Int) :
    p50Index n < n ∧ p99Index n < n ∧ isI64 (i64sum l) :=
  ⟨p50Index_lt hn, p99Index_lt hn, i64sum_isI64 l⟩

theorem stats_total_witness :
    1 ≤ 3 ∧ (p50Index 3 < 3 ∧ p99Index 3 < 3 ∧ isI64 (i64sum [5, -5, 2 ^ 62])) :=
  ⟨by decide, stats_total 3 (by decide) [5, -5, 2 ^ 62]⟩

theorem u32leEncode_length (len : Nat) : (u32leEncode len).length = 4 := rfl

theorem u32leDecode_encode {len : Nat} (h : len < 2 ^ 32) :
    u32leDecode (u32leEncode len) = len := by
  unfold u32leDecode u32leEncode
  simp only [List.getD]
  norm_num
  omega

/-- C2: a frame of length `len ≥ 1` makes the echo handler write exactly
`recv_ns` (the clock reading taken right after the length prefix and
before the payload) as 8 bytes i64 little-endian, then `send_ns` (the
reading taken after the payload, before writing) likewise, then the `len`
payload bytes unchanged — and then continue the loop on the rest of the
stream; monotonicity of the clock gives `recv_ns ≤ send_ns`. -/
theorem echo_frame_response (clock : Nat → Int) (hmono : Monotone clock)
    (tick : Nat) (payload more : List Nat) (endK : StreamEnd)
    (hlen1 : 1 ≤ payload.length) (hlen : payload.length < 2 ^ 32) :
    handleTcpEcho clock tick (u32leEncode payload.length ++ payload ++ more) endK =
      ((handleTcpEcho clock (tick + 2) more endK).1,
        i64leEncode (clock tick) ++ i64leEncode (clock (tick + 1)) ++ payload
          ++ (handleTcpEcho clock (tick + 2) more endK).2) ∧
    clock tick ≤ clock (tick + 1) := by
  constructor
  · rw [handleTcpEcho.eq_def]
    have hfour : ¬ (u32leEncode payload.length ++ payload ++ more).length < 4 := by
      simp [u32leEncode_length]
    rw [dif_neg hfour]
    have htake : (u32leEncode payload.length ++ payload ++ more).take 4 =
        u32leEncode payload.length := by
      rw [List.append_assoc]
      exact List.take_left' (u32leEncode_length _)
    have hdrop : (u32leEncode payload.length ++ payload ++ more).drop 4 =
        payload ++ more := by
      rw [List.append_assoc]
      exact List.drop_left' (u32leEncode_length _)
    rw [htake, hdrop, u32leDecode_encode hlen]
    rw [if_neg (by omega)]
    rw [if_neg (by simp)]
    rw [List.take_left, List.drop_left]
  · exact hmono (by omega)

theorem echo_frame_response_witness :
    Monotone (fun t : Nat => (t : Int)) ∧
    1 ≤ ([7] : List Nat).length ∧ ([7] : List Nat).length < 2 ^ 32 ∧
    (handleTcpEcho (fun t : Nat => (t : Int)) 0
        (u32leEncode ([7] : List Nat).length ++ [7] ++ []) .eof =
      ((handleTcpEcho (fun t : Nat => (t : Int)) (0 + 2) [] .eof).1,
        i64leEncode ((fun t : Nat => (t : Int)) 0)
          ++ i64leEncode ((fun t : Nat => (t : Int)) (0 + 1)) ++ [7]
          ++ (handleTcpEcho (fun t : Nat => (t : Int)) (0 + 2) [] .eof).2) ∧
      (fun t : Nat => (t : Int)) 0 ≤ (fun t : Nat => (t : Int)) (0 + 1)) :=
  ⟨fun a b h => Int.ofNat_le.mpr h, by decide, by decide,
   echo_frame_response (fun t : Nat => (t : Int))
     (fun a b h => Int.ofNat_le.mpr h) 0 [7] [] .eof (by decide) (by decide)⟩

/-- C3 counterexample: a stream that ends cleanly after a single byte of
the 4-byte length prefix (a partial frame).  The claim demands a terminal
per-connection error, but `handle_tcp_echo` maps every
`ErrorKind::UnexpectedEof` from the length read — which tokio's
`read_exact` reports whether 0 or 1–3 bytes had arrived — to `Ok(())`,
so the handler ends the connection successfully. -/
theorem echo_partial_prefix_counterexample :
    handleTcpEcho (fun _ => 0) 0 [5] .eof = (.success, []) ∧
    (handleTcpEcho (fun _ => 0) 0 [5] .eof).1 ≠ .connError := by
  constructor
  · rw [handleTcpEcho.eq_def]
    simp
  · rw [handleTcpEcho.eq_def]
    simp

/-- C3 (amended): when the peer's stream ends during the 4-byte
length-prefix read — whether before any byte or after 1 to 3 bytes — the
handler returns success if the end is a clean EOF (tokio `read_exact`
reports both cases as `UnexpectedEof`), and a terminal per-connection
error exactly when the read fails with any other I/O error. -/
theorem echo_prefix_end (clock : Nat → Int) (tick : Nat) (input : List Nat)
    (endK : StreamEnd) (h : input.length < 4) :
    handleTcpEcho clock tick input endK =
      (if endK = .eof then .success else .connError, []) := by
  rw [handleTcpEcho.eq_def, dif_pos h]
  cases endK <;> simp

theorem echo_prefix_end_witness :
    ([5, 6] : List Nat).length < 4 ∧
    handleTcpEcho (fun _ => 0) 0 [5, 6] .ioErr =
      (if StreamEnd.ioErr = .eof then .success else .connError, []) :=
  ⟨by decide, echo_prefix_end (fun _ => 0) 0 [5, 6] .ioErr (by decide)⟩

/-- C7: a frame whose length prefix is 0 ends the connection successfully
with no response bytes written, whatever else the peer had queued and
however the stream would have ended. -/
theorem echo_zero_len (clock : Nat → Int) (tick : Nat) (more : List Nat)
    (endK : StreamEnd) :
    handleTcpEcho clock tick (u32leEncode 0 ++ more) endK = (.success, []) := by
  rw [handleTcpEcho.eq_def]
  have hfour : ¬ (u32leEncode 0 ++ more).length < 4 := by simp [u32leEncode_length]
  rw [dif_neg hfour]
  have htake : (u32leEncode 0 ++ more).take 4 = u32leEncode 0 :=
    List.take_left' (u32leEncode_length _)
  rw [htake, u32leDecode_encode (by norm_num)]
  simp

/-- C6: every Benchmark response carries exactly
`min(max(iterations, 1), 10000)` latency samples; in particular
`iterations = 0` yields exactly 1 sample — the same count as
`iterations = 1` — and `iterations = 50000` yields exactly 10000. -/
theorem benchmark_sample_count (svc : HermitService) (clock : Nat → Int)
    (req : BenchmarkRequest) :
    (benchmark svc clock req).latencies_ns.length =
      min (max req.iterations 1) 10000 ∧
    (benchmark svc clock { iterations := 0, payload_bytes := 0 }).latencies_ns.length = 1 ∧
    (benchmark svc clock { iterations := 1, payload_bytes := 0 }).latencies_ns.length = 1 ∧
    (benchmark svc clock { iterations := 50000, payload_bytes := 1024 }).latencies_ns.length
      = 10000 := by
  have key : ∀ r : BenchmarkRequest,
      (benchmark svc clock r).latencies_ns.length =
        min (max r.iterations 1) 10000 := by
    intro r
    unfold benchmark
    simp [List.length_insertionSort, clampIterations]
  refine ⟨key req, ?_, ?_, ?_⟩ <;> rw [key] <;> norm_num

/-- C9: the latency sequence every Benchmark response returns is sorted
ascending, and the five summary fields of the response are exactly the
fields of `Stats::from_sorted` applied to that returned sequence. -/
theorem benchmark_stats_consistent (svc : HermitService) (clock : Nat → Int)
    (req : BenchmarkRequest) :
    (benchmark svc clock req).latencies_ns.Sorted (· ≤ ·) ∧
    (benchmark svc clock req).min_ns =
      (Stats.fromSorted (benchmark svc clock req).latencies_ns).min ∧
    (benchmark svc clock req).max_ns =
      (Stats.fromSorted (benchmark svc clock req).latencies_ns).max ∧
    (benchmark svc clock req).mean_ns =
      (Stats.fromSorted (benchmark svc clock req).latencies_ns).mean ∧
    (benchmark svc clock req).p50_ns =
      (Stats.fromSorted (benchmark svc clock req).latencies_ns).p50 ∧
    (benchmark svc clock req).p99_ns =
      (Stats.fromSorted (benchmark svc clock req).latencies_ns).p99 :=
  ⟨List.sorted_insertionSort _ _, rfl, rfl, rfl, rfl, rfl⟩

/-- C10: for the service value `serve` constructs, the TLS reporting
fields are constants independent of request, clock and state:
Benchmark's `tls_active` is `true`, its `tls_version` is `"TLS 1.3"`,
and ServerInfo's `tls_enabled` is `true`, because `serve` hardcodes
`tls_enabled: true`. -/
theorem serve_tls_fields (state : ServerState) (clock : Nat → Int)
    (req : BenchmarkRequest) (u s n : Int) (v : String) :
    (benchmark (serveService state) clock req).tls_active = true ∧
    (benchmark (serveService state) clock req).tls_version = "TLS 1.3" ∧
    (server_info (serveService state) u s n v).tls_enabled = true :=
  ⟨rfl, rfl, rfl⟩

theorem except_bind_ok {α β ε : Type} (a : α) (f : α → Except ε β) :
    (Except.ok a : Except ε α) >>= f = f a := rfl

theorem except_bind_error {α β ε : Type} (e : ε) (f : α → Except ε β) :
    (Except.error e : Except ε α) >>= f = Except.error e := rfl

theorem build_rustls_config_error_iff (ext : TlsExternal)
    (cpem kpem : List Nat) :
    (∃ e, build_rustls_config ext cpem kpem = .error e) ↔
      (∃ e, ext.parseCerts cpem = .error e) ∨
      (∃ e, ext.parsePkcs8Keys kpem = .error e) ∨
      ext.parsePkcs8Keys kpem = .ok [] ∨
      (∃ chain keys e, ext.parseCerts cpem = .ok chain ∧
        ext.parsePkcs8Keys kpem = .ok keys ∧ keys ≠ [] ∧
        ext.withSingleCert chain keys.headI = .error e) := by
  unfold build_rustls_config
  cases hc : ext.parseCerts cpem with
  | error e => simp [hc, except_bind_error]
  | ok chain =>
    cases hk : ext.parsePkcs8Keys kpem with
    | error e => simp [hc, hk, except_bind_ok, except_bind_error]
    | ok keys =>
      cases keys with
      | nil => simp [hc, hk, except_bind_ok]
      | cons a t =>
        cases hw : ext.withSingleCert chain (a :: t).headI with
        | error e => simp [hc, hk, hw, except_bind_ok]
        | ok sc => simp [hc, hk, hw, except_bind_ok]

/-- C8 counterexample: an oracle assignment under which both explicit
paths are readable and the key PEM parses to exactly one private key —
neither of the claim's two permitted error sources holds — yet
`resolve_tls_config` returns an error, because the certificate PEM is
malformed and tls.rs line 54 propagates the parse failure with `?`. -/
theorem resolve_cert_parse_counterexample :
    resolve_tls_config certParseFailTlsExternal (some "c") (some "k") =
      .error "bad cert pem" ∧
    certParseFailTlsExternal.readFile "c" = some [0] ∧
    certParseFailTlsExternal.readFile "k" = some [0] ∧
    certParseFailTlsExternal.parsePkcs8Keys [0] = .ok [[4]] ∧
    ([[4]] : List (List Nat)) ≠ [] :=
  ⟨rfl, rfl, rfl, rfl, by simp⟩

/-- C8 (amended): `resolve_tls_config` fails exactly when explicit
certificate and key paths are both given but a file read fails, or when
deriving the server context from the resolved PEM pair fails — the
certificate or key PEM has a malformed item, the key PEM parses to zero
private keys, or `with_single_cert` rejects the chain/key pair
(`build_rustls_config_error_iff` characterises these) — or, on the
self-signed branch, when generation itself fails.  With either path
absent the self-signed path is taken, whose outcome does not depend on
the filesystem at all: it can never fail due to missing files. -/
theorem resolve_tls_config_errors (ext : TlsExternal) (c k : String)
    (cp kp : Option String) (habsent : cp = none ∨ kp = none) :
    ((∃ e, resolve_tls_config ext (some c) (some k) = .error e) ↔
      ext.readFile c = none ∨ ext.readFile k = none ∨
      (∃ cpem kpem, ext.readFile c = some cpem ∧ ext.readFile k = some kpem ∧
        ∃ e, build_rustls_config ext cpem kpem = .error e)) ∧
    ((∃ e, resolve_tls_config ext cp kp = .error e) ↔
      (∃ e, ext.generateSelfSigned = .error e) ∨
      (∃ cpem kpem, ext.generateSelfSigned = .ok (cpem, kpem) ∧
        ∃ e, build_rustls_config ext cpem kpem = .error e)) ∧
    (∀ f g : String → Option (List Nat),
      resolve_tls_config { ext with readFile := f } cp kp =
        resolve_tls_config { ext with readFile := g } cp kp) := by
  have hself : ∀ ext' : TlsExternal, (cp = none ∨ kp = none) →
      resolve_tls_config ext' cp kp =
        ext'.generateSelfSigned.bind (fun pems =>
          (build_rustls_config ext' pems.1 pems.2).bind (fun sc =>
            Except.ok { cert_pem := pems.1, key_pem := pems.2,
                        server_config := sc })) := by
    intro ext' habs
    cases cp with
    | none => cases kp <;> rfl
    | some a =>
      cases kp with
      | none => rfl
      | some b => rcases habs with h | h <;> exact absurd h (by simp)
  refine ⟨?_, ?_, ?_⟩
  · unfold resolve_tls_config
    cases hc : ext.readFile c with
    | none => simp [hc, except_bind_error]
    | some cpem =>
      cases hk : ext.readFile k with
      | none => simp [hc, hk, except_bind_error]
      | some kpem =>
        cases hb : build_rustls_config ext cpem kpem with
        | error e => simp [hc, hk, hb, except_bind_ok, except_bind_error]
        | ok sc => simp [hc, hk, hb, except_bind_ok]
  · rw [hself ext habsent]
    cases hg : ext.generateSelfSigned with
    | error e => simp [hg, Except.bind]
    | ok pems =>
      cases hb : build_rustls_config ext pems.1 pems.2 with
      | error e =>
        simp only [hg, Except.bind, hb]
        constructor
        · intro _
          exact Or.inr ⟨pems.1, pems.2, rfl, e, hb⟩
        · intro _
          exact ⟨e, rfl⟩
      | ok sc =>
        simp only [hg, Except.bind, hb]
        constructor
        · rintro ⟨e, he⟩
          exact absurd he (by simp)
        · rintro (⟨e, he⟩ | ⟨cpem, kpem, hpems, e, he⟩)
          · exact absurd he (by simp)
          · injection hpems with hpair
            subst hpair
            have hb2 : build_rustls_config ext cpem kpem = Except.ok sc := hb
            rw [hb2] at he
            exact absurd he (by simp)
  · intro f g
    rw [hself _ habsent, hself _ habsent]
    unfold build_rustls_config
    simp

theorem resolve_tls_config_errors_witness :
    ((none : Option String) = none ∨ (some "k" : Option String) = none) ∧
    (((∃ e, resolve_tls_config sampleTlsExternal (some "c") (some "k") = .error e) ↔
        sampleTlsExternal.readFile "c" = none ∨
        sampleTlsExternal.readFile "k" = none ∨
        (∃ cpem kpem, sampleTlsExternal.readFile "c" = some cpem ∧
          sampleTlsExternal.readFile "k" = some kpem ∧
          ∃ e, build_rustls_config sampleTlsExternal cpem kpem = .error e)) ∧
      ((∃ e, resolve_tls_config sampleTlsExternal none (some "k") = .error e) ↔
        (∃ e, sampleTlsExternal.generateSelfSigned = .error e) ∨
        (∃ cpem kpem, sampleTlsExternal.generateSelfSigned = .ok (cpem, kpem) ∧
          ∃ e, build_rustls_config sampleTlsExternal cpem kpem = .error e)) ∧
      (∀ f g : String → Option (List Nat),
        resolve_tls_config { sampleTlsExternal with readFile := f } none (some "k") =
          resolve_tls_config { sampleTlsExternal with readFile := g } none (some "k"))) :=
  ⟨Or.inl rfl,
   resolve_tls_config_errors sampleTlsExternal "c" "k" none (some "k") (Or.inl rfl)⟩

end Nexus

